import Mathlib

/-!
# wheregoes: the redirect tracer of `web-handlers.go`

A shallow embedding of `getStatusCodeClass`, `handleRelativeRedirect`, `doTimeout` and
`followRedirects`, and the properties of the tracer stated over it.

Go values are embedded as follows.
* `int` is `Int` (the code only compares status codes, no arithmetic can overflow).
* `string` is `String`; a Go string is a byte sequence, so a `String` holds one `Char`
  per byte (every literal of the program is ASCII).
* `error` is `Option String`: `none` is `nil`, `some msg` an error with that message.
* `[]Hop` is `List Hop`; a `nil` slice and an empty slice are both `[]`.
* the package-level variables `cloudflareStatus` and `thereWasATimeout` are the fields of
  `Globals`, passed in and out explicitly.
-/

namespace WhereGoes

/-! ## Status-code classes -/

/-- `getStatusCodeClass` of `web-handlers.go`: the `switch` is tried case by case. -/
def getStatusCodeClass (statusCode : Int) : String :=
  if statusCode ≥ 200 ∧ statusCode < 300 then "2xx"
  else if statusCode ≥ 300 ∧ statusCode < 400 then "3xx"
  else if statusCode ≥ 400 ∧ statusCode < 500 then "4xx"
  else if statusCode ≥ 500 ∧ statusCode < 600 then "5xx"
  else ""

/-! ## The standard library, as far as the tracer uses it -/

/-- `strings.Contains`: some suffix of `s` starts with `substr`. -/
def stringsContains (s substr : String) : Bool :=
  s.data.tails.any (fun t => substr.data.isPrefixOf t)

/-- The scan of `strings.ReplaceAll` for a non-empty `old`: left to right, occurrences do
not overlap; `skip` counts the bytes of a matched occurrence still to be passed over. -/
def replaceAllFrom (old new : List Char) : Nat → List Char → List Char
  | _, [] => []
  | skip + 1, _ :: rest => replaceAllFrom old new skip rest
  | 0, c :: rest =>
    if old.isPrefixOf (c :: rest) then new ++ replaceAllFrom old new (old.length - 1) rest
    else c :: replaceAllFrom old new 0 rest

/-- `strings.ReplaceAll(s, old, new)` for a non-empty `old` (the tracer passes `"%3A"` and
`"%2F"`). -/
def stringsReplaceAll (s old new : String) : String :=
  ⟨replaceAllFrom old.data new.data 0 s.data⟩

deriving instance DecidableEq for Except

/-- `url.Userinfo`. -/
structure Userinfo where
  username : String
  password : String
  passwordSet : Bool
  deriving DecidableEq, Repr

/-- `url.URL`, field for field. -/
structure URL where
  Scheme : String := ""
  Opaque : String := ""
  User : Option Userinfo := none
  Host : String := ""
  Path : String := ""
  RawPath : String := ""
  OmitHost : Bool := false
  ForceQuery : Bool := false
  RawQuery : String := ""
  Fragment : String := ""
  RawFragment : String := ""
  deriving DecidableEq, Repr

/-- `(*URL).IsAbs`: the URL has a scheme. -/
def URL.IsAbs (u : URL) : Bool := decide (u.Scheme ≠ "")

/-- `url.Values`, the map from a key to its values (no entry: `[]`). -/
abbrev Values := String → List String

/-- `Values.Get`: the first value of the key, `""` when it has none. -/
def Values.Get (v : Values) (key : String) : String :=
  match v key with
  | [] => ""
  | x :: _ => x

/-- The functions of package `net/url` that the tracer calls. The package is not part of the
repository; the tracer is embedded over any implementation of it, and `goURL` below is the
one the examples are evaluated with. A failing call carries its error message. -/
structure NetURL where
  /-- `url.Parse`. -/
  Parse : String → Except String URL
  /-- `(*URL).String`. -/
  URLString : URL → String
  /-- `(*URL).Query`. -/
  Query : URL → Values
  /-- `url.PathUnescape`. -/
  PathUnescape : String → Except String String

/-- `http.Header`: the pairs of a canonical key and a value, in order. -/
abbrev Header := List (String × String)

/-- `Header.Get`: the first value of the key, `""` when the header is absent. -/
def Header.Get (h : Header) (key : String) : String :=
  match h.lookup key with
  | some v => v
  | none => ""

/-- `Header.Set`: the key's values are replaced by the one value. -/
def Header.Set (h : Header) (key value : String) : Header :=
  (h.filter (fun kv => kv.1 ≠ key)) ++ [(key, value)]

/-- The part of `http.Response` the tracer reads. -/
structure Response where
  StatusCode : Int
  Header : Header
  deriving DecidableEq, Repr

/-- The `*url.Error` that `client.Do` returns on failure ("Any returned error will be of type
`*url.Error`", so the type assertion of the tracer succeeds): `Error()` and `Timeout()`. -/
structure URLError where
  Error : String
  Timeout : Bool
  deriving DecidableEq, Repr

/-- The outside world behind `client.Do(req)`. The request is a `GET` of `urlStr` with the
fixed `User-Agent`; `CheckRedirect` returns `http.ErrUseLastResponse` at the first
redirect (`len(via) >= 1` holds there), so `Do` hands back the response to exactly that request.
The world has a state `σ`, which a request may change. -/
structure Client (σ : Type) where
  Do : σ → String → Except URLError Response × σ

/-- What the handler has written to its `http.ResponseWriter`. -/
structure ResponseWriter where
  header : Header := []
  status : Option Int := none
  deriving DecidableEq, Repr

/-- `http.Redirect(w, r, url, code)` for a `url` that starts with `/` and a `w` whose
`Content-Type` is already set: the `Location` header and the status code are written. -/
def httpRedirect (w : ResponseWriter) (url : String) (code : Int) : ResponseWriter :=
  { header := w.header.Set "Location" url, status := some code }

/-! ## The program -/

/-- The package-level variables the handlers share. -/
structure Globals where
  cloudflareStatus : Bool
  thereWasATimeout : Bool
  deriving DecidableEq, Repr

/-- `Hop` (declared outside `web-handlers.go`), with the fields the tracer fills. -/
structure Hop where
  Number : Int
  URL : String
  StatusCode : Int
  StatusCodeClass : String
  deriving DecidableEq, Repr

/-- `doTimeout`: raises the timeout flag and redirects the client to `/timeout`. -/
def doTimeout (g : Globals) (w : ResponseWriter) : Globals × ResponseWriter :=
  ({ g with thereWasATimeout := true },
    httpRedirect { w with header := w.header.Set "Content-Type" "text/html" } "/timeout" 302)

/-- `handleRelativeRedirect`: the pair `(absoluteURL, err)` it returns. -/
def handleRelativeRedirect (lib : NetURL) (previousURL : Option URL) (location : String) :
    String × Option String :=
  match lib.Parse location with
  | .error err => ("", some err)
  | .ok redirectURL =>
    if !redirectURL.IsAbs then
      match previousURL with
      | some previous =>
        (lib.URLString { redirectURL with Scheme := previous.Scheme, Host := previous.Host }, none)
      | none =>
        match lib.Parse location with
        | .ok currentURL =>
          (lib.URLString { redirectURL with Scheme := currentURL.Scheme, Host := currentURL.Host },
            none)
        | .error err => ("", some err)
    else (lib.URLString redirectURL, none)

/-- Lines 125-135 of `followRedirects`: the `redirectURL` after the check for a `returnUri`
query parameter of the parsed redirect URL `u`, or the error of `url.PathUnescape`. -/
def rewriteReturnUri (lib : NetURL) (u : URL) (redirectURL : String) : Except String String :=
  let queryParams := lib.Query u
  let returnURI := queryParams.Get "returnUri"
  if returnURI ≠ "" then
    match lib.PathUnescape returnURI with
    | .error err => .error err
    | .ok decodedReturnURI =>
      let decodedReturnURI := stringsReplaceAll decodedReturnURI "%3A" ":"
      let decodedReturnURI := stringsReplaceAll decodedReturnURI "%2F" "/"
      .ok (u.Scheme ++ "://" ++ u.Host ++ u.Path ++ "?returnUri=" ++ decodedReturnURI)
  else .ok redirectURL

/-- Lines 115-143 of `followRedirects`: from the `Location` of a redirect response to the
new `urlStr` and `previousURL` with which the loop continues, or the message of the error
with which the function returns. -/
def redirectTarget (lib : NetURL) (previousURL : Option URL) (location : String) :
    Except String (String × URL) :=
  match handleRelativeRedirect lib previousURL location with
  | (_, some err) => .error ("error handling relative redirect: " ++ err)
  | (redirectURL, none) =>
    match lib.Parse redirectURL with
    | .error err => .error ("error parsing URL: " ++ err)
    | .ok u =>
      match rewriteReturnUri lib u redirectURL with
      | .error err => .error ("error decoding returnUri: " ++ err)
      | .ok urlStr =>
        match lib.Parse urlStr with
        | .error err => .error ("error parsing URL: " ++ err)
        | .ok previousURL => .ok (urlStr, previousURL)

/-- The local variables of `followRedirects` at the top of its `for` loop, with the
package-level variables, the response writer and the world. -/
structure LoopState (σ : Type) where
  urlStr : String
  hops : List Hop
  number : Int
  previousURL : Option URL
  g : Globals
  w : ResponseWriter
  net : σ
  deriving DecidableEq

/-- What `followRedirects` returns, and the state it leaves behind. -/
structure Returned (σ : Type) where
  redirectURL : String
  hops : List Hop
  err : Option String
  g : Globals
  w : ResponseWriter
  net : σ
  deriving DecidableEq

/-- One pass through the loop body either returns or goes round again. -/
inductive Step (σ : Type) where
  | ret (r : Returned σ)
  | next (st : LoopState σ)
  deriving DecidableEq

/-- The body of the `for` loop of `followRedirects`. `http.NewRequest` fails exactly when
`url.Parse` of its URL does. -/
def loopBody {σ : Type} (lib : NetURL) (client : Client σ) (st : LoopState σ) : Step σ :=
  match lib.Parse st.urlStr with
  | .error err =>
    .ret ⟨"", [], some ("error creating request: " ++ err), st.g, st.w, st.net⟩
  | .ok _ =>
    match client.Do st.net st.urlStr with
    | (.error err, net) =>
      if err.Timeout then
        let gw := doTimeout st.g st.w
        .ret ⟨"", [], none, gw.1, gw.2, net⟩
      else
        .ret ⟨"", [], some ("error accessing URL: " ++ err.Error), st.g, st.w, net⟩
    | (.ok resp, net) =>
      let hop : Hop :=
        { Number := st.number, URL := st.urlStr, StatusCode := resp.StatusCode,
          StatusCodeClass := getStatusCodeClass resp.StatusCode }
      let hops := st.hops ++ [hop]
      if resp.StatusCode ≥ 300 ∧ resp.StatusCode ≤ 399 then
        let location := resp.Header.Get "Location"
        if location = "" then
          let g : Globals :=
            if stringsContains (resp.Header.Get "Server") "cloudflare" then
              { st.g with cloudflareStatus := true }
            else st.g
          .ret ⟨"", [], none, g, st.w, net⟩
        else
          match redirectTarget lib st.previousURL location with
          | .error msg => .ret ⟨"", [], some msg, st.g, st.w, net⟩
          | .ok (urlStr, previousURL) =>
            .next
              { urlStr := urlStr, hops := hops, number := st.number + 1,
                previousURL := some previousURL, g := st.g, w := st.w, net := net }
      else
        .ret ⟨st.urlStr, hops, none, st.g, st.w, net⟩

/-- The `for` loop run for at most `fuel` passes: `.ret r` when it returns `r` within them,
`.next st` when after `fuel` passes it is back at the top in state `st`. -/
def followRedirectsLoop {σ : Type} (lib : NetURL) (client : Client σ) :
    Nat → LoopState σ → Step σ
  | 0, st => .next st
  | fuel + 1, st =>
    match loopBody lib client st with
    | .ret r => .ret r
    | .next st' => followRedirectsLoop lib client fuel st'

/-- `followRedirects(urlStr, w, r)`: the flag `cloudflareStatus` is reset, then the loop runs
from hop number 1 with no hops and no previous URL. -/
def followRedirects {σ : Type} (lib : NetURL) (client : Client σ) (fuel : Nat)
    (urlStr : String) (g : Globals) (w : ResponseWriter) (net : σ) : Step σ :=
  followRedirectsLoop lib client fuel
    { urlStr := urlStr, hops := [], number := 1, previousURL := none,
      g := { g with cloudflareStatus := false }, w := w, net := net }

/-! ## Package `net/url`

The functions of Go's `net/url` behind `url.Parse`, `(*URL).String`, `(*URL).Query` and
`url.PathUnescape`, written after the package's source (Go 1.21), function by function and
under its names. They work on the bytes of a string (`List Char`, one `Char` a byte); the
error texts are the package's, without the `parse "...":` wrapper of `url.Error`. -/

namespace GoURL

/-- The package's `encoding` modes. -/
inductive Encoding where
  | encodePath
  | encodePathSegment
  | encodeHost
  | encodeZone
  | encodeUserPassword
  | encodeQueryComponent
  | encodeFragment
  deriving DecidableEq, Repr

/-- `strconv.Quote` of a string of printable ASCII without quotes or backslashes. -/
def quote (s : List Char) : String := "\"" ++ String.mk s ++ "\""

/-- `strings.HasPrefix`. -/
def startsWith (s p : List Char) : Bool := p.isPrefixOf s

/-- `strings.Cut` at a one-byte separator: before, after, found. -/
def cut (sep : Char) : List Char → List Char × List Char × Bool
  | [] => ([], [], false)
  | c :: rest =>
    if c = sep then ([], rest, true)
    else
      let r := cut sep rest
      (c :: r.1, r.2.1, r.2.2)

/-- `strings.LastIndex` of a one-byte separator (`none` for -1). -/
def lastIndex (sep : Char) (s : List Char) : Option Nat :=
  let r := cut sep s.reverse
  if r.2.2 then some r.2.1.length else none

/-- `strings.Index` (`none` for -1). -/
def index (sub : List Char) : List Char → Option Nat
  | [] => if sub.isEmpty then some 0 else none
  | c :: rest =>
    if sub.isPrefixOf (c :: rest) then some 0
    else (index sub rest).map (· + 1)

/-- The pieces of `s` between the occurrences of `sep`. -/
def splitAt (sep : Char) : List Char → List (List Char)
  | [] => [[]]
  | c :: rest =>
    match splitAt sep rest with
    | [] => [[]]
    | piece :: pieces => if c = sep then [] :: piece :: pieces else (c :: piece) :: pieces

/-- `stringContainsCTLByte`: an ASCII control character occurs. -/
def stringContainsCTLByte (s : List Char) : Bool :=
  s.any (fun b => decide (b.toNat < 0x20 ∨ b.toNat = 0x7f))

/-- An ASCII letter. -/
def isLetter (c : Char) : Bool :=
  decide (('a'.toNat ≤ c.toNat ∧ c.toNat ≤ 'z'.toNat) ∨ ('A'.toNat ≤ c.toNat ∧ c.toNat ≤ 'Z'.toNat))

/-- An ASCII digit. -/
def isDigit (c : Char) : Bool :=
  decide ('0'.toNat ≤ c.toNat ∧ c.toNat ≤ '9'.toNat)

/-- `ishex`. -/
def ishex (c : Char) : Bool :=
  isDigit c || decide (('a'.toNat ≤ c.toNat ∧ c.toNat ≤ 'f'.toNat) ∨
    ('A'.toNat ≤ c.toNat ∧ c.toNat ≤ 'F'.toNat))

/-- `unhex`. -/
def unhex (c : Char) : Nat :=
  if isDigit c then c.toNat - '0'.toNat
  else if 'a'.toNat ≤ c.toNat ∧ c.toNat ≤ 'f'.toNat then c.toNat - 'a'.toNat + 10
  else if 'A'.toNat ≤ c.toNat ∧ c.toNat ≤ 'F'.toNat then c.toNat - 'A'.toNat + 10
  else 0

/-- The digit of `upperhex` for a value below 16. -/
def upperhex (n : Nat) : Char := "0123456789ABCDEF".data.getD n '0'

/-- `shouldEscape`: must the byte be escaped in the given part of a URL. -/
def shouldEscape (c : Char) (mode : Encoding) : Bool :=
  if isLetter c || isDigit c then false
  else if (mode = .encodeHost ∨ mode = .encodeZone) ∧
      c ∈ ['!', '$', '&', '\'', '(', ')', '*', '+', ',', ';', '=', ':', '[', ']', '<', '>',
        Char.ofNat 0x22] then false
  else if c ∈ ['-', '_', '.', '~'] then false
  else if c ∈ ['$', '&', '+', ',', '/', ':', ';', '=', '?', '@'] ∧
      mode ≠ .encodeHost ∧ mode ≠ .encodeZone then
    match mode with
    | .encodePath => decide (c = '?')
    | .encodePathSegment => decide (c = '/' ∨ c = ';' ∨ c = ',' ∨ c = '?')
    | .encodeUserPassword => decide (c = '@' ∨ c = '/' ∨ c = '?' ∨ c = ':')
    | .encodeQueryComponent => true
    | _ => false
  else if mode = .encodeFragment ∧ c ∈ ['!', '(', ')', '*'] then false
  else true

/-- The first loop of `unescape`: the error it stops at, if any. -/
def unescapeError (mode : Encoding) : List Char → Option String
  | [] => none
  | c :: rest =>
    if c = '%' then
      match rest with
      | a :: b :: rest' =>
        if !ishex a || !ishex b then some ("invalid URL escape " ++ quote [c, a, b])
        else if mode = .encodeHost ∧ unhex a < 8 ∧ [c, a, b] ≠ ['%', '2', '5'] then
          some ("invalid URL escape " ++ quote [c, a, b])
        else if mode = .encodeZone ∧ [c, a, b] ≠ ['%', '2', '5'] ∧
            Char.ofNat (unhex a * 16 + unhex b) ≠ ' ' ∧
            shouldEscape (Char.ofNat (unhex a * 16 + unhex b)) .encodeHost then
          some ("invalid URL escape " ++ quote [c, a, b])
        else unescapeError mode rest'
      | _ => some ("invalid URL escape " ++ quote (c :: rest))
    else if c = '+' then unescapeError mode rest
    else if (mode = .encodeHost ∨ mode = .encodeZone) ∧ c.toNat < 0x80 ∧
        shouldEscape c .encodeHost then
      some ("invalid character " ++ quote [c] ++ " in host name")
    else unescapeError mode rest

/-- The second loop of `unescape`: the decoded bytes of a string the first loop accepts. -/
def unescapeBytes (mode : Encoding) : List Char → List Char
  | [] => []
  | c :: rest =>
    if c = '%' then
      match rest with
      | a :: b :: rest' => Char.ofNat (unhex a * 16 + unhex b) :: unescapeBytes mode rest'
      | _ => []
    else if c = '+' ∧ mode = .encodeQueryComponent then ' ' :: unescapeBytes mode rest
    else c :: unescapeBytes mode rest

/-- `unescape`. -/
def unescape (s : List Char) (mode : Encoding) : Except String (List Char) :=
  match unescapeError mode s with
  | some err => .error err
  | none => .ok (unescapeBytes mode s)

/-- `escape`. -/
def escape (s : List Char) (mode : Encoding) : List Char :=
  s.flatMap fun c =>
    if shouldEscape c mode then
      if c = ' ' ∧ mode = .encodeQueryComponent then ['+']
      else ['%', upperhex (c.toNat / 16), upperhex (c.toNat % 16)]
    else [c]

/-- `validEncoded`. -/
def validEncoded (s : List Char) (mode : Encoding) : Bool :=
  s.all fun c =>
    c ∈ ['!', '$', '&', '\'', '(', ')', '*', '+', ',', ';', '=', ':', '@', '[', ']', '%'] ||
      !shouldEscape c mode

/-- The loop of `getScheme`: `none` when there is no scheme, else the scheme (gathered in
`seen`, last byte first) and the rest after the colon. -/
def getSchemeFrom (seen : List Char) :
    List Char → Except String (Option (List Char × List Char))
  | [] => .ok none
  | c :: rest =>
    if isLetter c then getSchemeFrom (c :: seen) rest
    else if isDigit c ∨ c = '+' ∨ c = '-' ∨ c = '.' then
      if seen.isEmpty then .ok none else getSchemeFrom (c :: seen) rest
    else if c = ':' then
      if seen.isEmpty then .error "missing protocol scheme" else .ok (some (seen.reverse, rest))
    else .ok none

/-- `getScheme`: the scheme and what follows it. -/
def getScheme (rawURL : List Char) : Except String (List Char × List Char) :=
  match getSchemeFrom [] rawURL with
  | .error err => .error err
  | .ok none => .ok ([], rawURL)
  | .ok (some r) => .ok r

/-- `validOptionalPort`. -/
def validOptionalPort (port : List Char) : Bool :=
  match port with
  | [] => true
  | c :: digits => decide (c = ':') && digits.all isDigit

/-- `validUserinfo`. -/
def validUserinfo (s : List Char) : Bool :=
  s.all fun r =>
    isLetter r || isDigit r ||
      r ∈ ['-', '.', '_', ':', '~', '!', '$', '&', '\'', '(', ')', '*', '+', ',', ';', '=', '%',
        '@']

/-- `parseHost`. -/
def parseHost (host : List Char) : Except String (List Char) :=
  if startsWith host ['['] then
    match lastIndex ']' host with
    | none => .error "missing ']' in host"
    | some i =>
      let colonPort := host.drop (i + 1)
      if !validOptionalPort colonPort then
        .error ("invalid port " ++ quote colonPort ++ " after host")
      else
        match index ['%', '2', '5'] (host.take i) with
        | some zone =>
          match unescape (host.take zone) .encodeHost with
          | .error err => .error err
          | .ok host1 =>
            match unescape ((host.take i).drop zone) .encodeZone with
            | .error err => .error err
            | .ok host2 =>
              match unescape (host.drop i) .encodeHost with
              | .error err => .error err
              | .ok host3 => .ok (host1 ++ host2 ++ host3)
        | none => unescape host .encodeHost
  else
    match lastIndex ':' host with
    | some i =>
      if !validOptionalPort (host.drop i) then
        .error ("invalid port " ++ quote (host.drop i) ++ " after host")
      else unescape host .encodeHost
    | none => unescape host .encodeHost

/-- The userinfo part of `parseAuthority`. -/
def parseUserinfo (userinfo : List Char) : Except String Userinfo :=
  if !validUserinfo userinfo then .error "net/url: invalid userinfo"
  else if ¬ (':' ∈ userinfo) then
    match unescape userinfo .encodeUserPassword with
    | .error err => .error err
    | .ok username => .ok { username := ⟨username⟩, password := "", passwordSet := false }
  else
    let r := cut ':' userinfo
    match unescape r.1 .encodeUserPassword with
    | .error err => .error err
    | .ok username =>
      match unescape r.2.1 .encodeUserPassword with
      | .error err => .error err
      | .ok password => .ok { username := ⟨username⟩, password := ⟨password⟩, passwordSet := true }

/-- `parseAuthority`: the user and the host of `[userinfo@]host`. -/
def parseAuthority (authority : List Char) : Except String (Option Userinfo × List Char) :=
  match lastIndex '@' authority with
  | none =>
    match parseHost authority with
    | .error err => .error err
    | .ok host => .ok (none, host)
  | some i =>
    match parseHost (authority.drop (i + 1)) with
    | .error err => .error err
    | .ok host =>
      match parseUserinfo (authority.take i) with
      | .error err => .error err
      | .ok user => .ok (some user, host)

/-- `(*URL).setPath`. -/
def setPath (u : URL) (p : List Char) : Except String URL :=
  match unescape p .encodePath with
  | .error err => .error err
  | .ok path =>
    .ok { u with Path := ⟨path⟩, RawPath := if p = escape path .encodePath then "" else ⟨p⟩ }

/-- `(*URL).setFragment`. -/
def setFragment (u : URL) (f : List Char) : Except String URL :=
  match unescape f .encodeFragment with
  | .error err => .error err
  | .ok frag =>
    .ok { u with
      Fragment := ⟨frag⟩, RawFragment := if f = escape frag .encodeFragment then "" else ⟨f⟩ }

/-- The unexported `parse(rawURL, viaRequest)` at `viaRequest = false`: a URL without
`#fragment`. -/
def parse (rawURL : List Char) : Except String URL :=
  if stringContainsCTLByte rawURL then .error "net/url: invalid control character in URL"
  else if rawURL = ['*'] then .ok { Path := "*" }
  else
    match getScheme rawURL with
    | .error err => .error err
    | .ok (scheme, rest) =>
      let force := decide (rest.getLast? = some '?' ∧ rest.count '?' = 1)
      let q := cut '?' rest
      let rest := if force then rest.dropLast else q.1
      let url : URL :=
        { Scheme := ⟨scheme.map Char.toLower⟩, ForceQuery := force,
          RawQuery := if force then "" else ⟨q.2.1⟩ }
      if !startsWith rest ['/'] && decide (url.Scheme ≠ "") then
        .ok { url with Opaque := ⟨rest⟩ }
      else if !startsWith rest ['/'] && decide (':' ∈ (cut '/' rest).1) then
        .error "first path segment in URL cannot contain colon"
      else if (decide (url.Scheme ≠ "") || !startsWith rest ['/', '/', '/']) &&
          startsWith rest ['/', '/'] then
        let a := cut '/' (rest.drop 2)
        match parseAuthority a.1 with
        | .error err => .error err
        | .ok (user, host) =>
          setPath { url with User := user, Host := ⟨host⟩ } (if a.2.2 then '/' :: a.2.1 else [])
      else if decide (url.Scheme ≠ "") && startsWith rest ['/'] then
        setPath { url with OmitHost := true } rest
      else setPath url rest

/-- `url.Parse`: the fragment is cut off, the rest parsed, the fragment set. -/
def Parse (rawURL : String) : Except String URL :=
  let r := cut '#' rawURL.data
  match parse r.1 with
  | .error err => .error err
  | .ok url => if r.2.1 = [] then .ok url else setFragment url r.2.1

/-- The test `p, err := unescape(raw, mode); err == nil && p == decoded` of `EscapedPath`
and `EscapedFragment`. -/
def unescapesTo (raw : List Char) (mode : Encoding) (decoded : List Char) : Bool :=
  match unescape raw mode with
  | .ok p => decide (p = decoded)
  | .error _ => false

/-- `(*URL).EscapedPath`. -/
def EscapedPath (u : URL) : List Char :=
  if u.RawPath ≠ "" ∧ validEncoded u.RawPath.data .encodePath ∧
      unescapesTo u.RawPath.data .encodePath u.Path.data then u.RawPath.data
  else if u.Path = "*" then ['*']
  else escape u.Path.data .encodePath

/-- `(*URL).EscapedFragment`. -/
def EscapedFragment (u : URL) : List Char :=
  if u.RawFragment ≠ "" ∧ validEncoded u.RawFragment.data .encodeFragment ∧
      unescapesTo u.RawFragment.data .encodeFragment u.Fragment.data then u.RawFragment.data
  else escape u.Fragment.data .encodeFragment

/-- `(*Userinfo).String`. -/
def userinfoString (ui : Userinfo) : List Char :=
  escape ui.username.data .encodeUserPassword ++
    (if ui.passwordSet then ':' :: escape ui.password.data .encodeUserPassword else [])

/-- The part of `(*URL).String` before the query, for a URL that is not opaque. -/
def hierPart (u : URL) : List Char :=
  let scheme : List Char := if u.Scheme ≠ "" then u.Scheme.data ++ [':'] else []
  let authority : List Char :=
    if (u.Scheme ≠ "" ∨ u.Host ≠ "" ∨ u.User ≠ none) ∧
        ¬ (u.OmitHost = true ∧ u.Host = "" ∧ u.User = none) then
      (if u.Host ≠ "" ∨ u.Path ≠ "" ∨ u.User ≠ none then ['/', '/'] else []) ++
        (match u.User with
          | some ui => userinfoString ui ++ ['@']
          | none => []) ++
        (if u.Host ≠ "" then escape u.Host.data .encodeHost else [])
    else []
  let path := EscapedPath u
  let slash : List Char := if path ≠ [] ∧ path.head? ≠ some '/' ∧ u.Host ≠ "" then ['/'] else []
  let buf := scheme ++ authority ++ slash
  let dot : List Char := if buf = [] ∧ ':' ∈ (cut '/' path).1 then ['.', '/'] else []
  buf ++ dot ++ path

/-- `(*URL).String`. -/
def URLString (u : URL) : String :=
  let front : List Char :=
    if u.Opaque ≠ "" then (if u.Scheme ≠ "" then u.Scheme.data ++ [':'] else []) ++ u.Opaque.data
    else hierPart u
  let query : List Char := if u.ForceQuery = true ∨ u.RawQuery ≠ "" then '?' :: u.RawQuery.data else []
  let fragment : List Char := if u.Fragment ≠ "" then '#' :: EscapedFragment u else []
  ⟨front ++ query ++ fragment⟩

/-- `parseQuery`: the pairs of key and value of a query string, in order; a piece with a
semicolon, an empty piece and a piece with a bad escape are passed over. -/
def parseQuery (query : List Char) : List (String × String) :=
  (splitAt '&' query).filterMap fun piece =>
    if ';' ∈ piece ∨ piece = [] then none
    else
      let kv := cut '=' piece
      match unescape kv.1 .encodeQueryComponent, unescape kv.2.1 .encodeQueryComponent with
      | .ok key, .ok value => some (⟨key⟩, ⟨value⟩)
      | _, _ => none

/-- `(*URL).Query`: the values of each key of `RawQuery`. -/
def Query (u : URL) : Values :=
  fun key => ((parseQuery u.RawQuery.data).filter (fun kv => kv.1 = key)).map (fun kv => kv.2)

/-- `url.PathUnescape`. -/
def PathUnescape (s : String) : Except String String :=
  match unescape s.data .encodePathSegment with
  | .error err => .error err
  | .ok t => .ok ⟨t⟩

end GoURL

/-- Go's `net/url`. -/
def goURL : NetURL :=
  { Parse := GoURL.Parse, URLString := GoURL.URLString, Query := GoURL.Query,
    PathUnescape := GoURL.PathUnescape }

/-! ## Traces and worlds -/

/-- The hops the tracer records for the exchanges `xs` (the URL requested, the status
received), numbered from `n`. -/
def hopsFrom : Int → List (String × Int) → List Hop
  | _, [] => []
  | n, (url, status) :: rest =>
    { Number := n, URL := url, StatusCode := status,
      StatusCodeClass := getStatusCodeClass status } :: hopsFrom (n + 1) rest

/-- `Redirected lib client net prev u reds net' prev' u'`: from the world `net`, with previous
URL `prev`, the requests for `u` and the URLs after it are answered with the redirects `reds`
(the URL requested, the status received): each status lies in [300,399], each `Location` is
non-empty and the tracer makes the next URL of it; after them the world is `net'`, the previous
URL `prev'` and the URL to request `u'`. -/
def Redirected {σ : Type} (lib : NetURL) (client : Client σ) :
    σ → Option URL → String → List (String × Int) → σ → Option URL → String → Prop
  | net, prev, u, [], net', prev', u' => net' = net ∧ prev' = prev ∧ u' = u
  | net, prev, u, (u1, s1) :: rest, net', prev', u' =>
    u1 = u ∧ ∃ resp net1 next p,
      client.Do net u = (.ok resp, net1) ∧ resp.StatusCode = s1 ∧ 300 ≤ s1 ∧ s1 ≤ 399 ∧
      resp.Header.Get "Location" ≠ "" ∧
      redirectTarget lib prev (resp.Header.Get "Location") = .ok (next, p) ∧
      Redirected lib client net1 (some p) next rest net' prev' u'

/-- A world that answers each URL as the table says and a URL not in it with a failed
lookup of the host; its state is the log of the URLs requested so far. -/
def serve (table : List (String × Except URLError Response)) : Client (List String) :=
  { Do := fun log urlStr =>
      (match table.lookup urlStr with
        | some answer => answer
        | none => .error { Error := "dial tcp: lookup: no such host", Timeout := false },
        log ++ [urlStr]) }

/-- A response with the status and the `Location` header. -/
def redirectTo (status : Int) (location : String) : Except URLError Response :=
  .ok { StatusCode := status, Header := [("Location", location)] }

/-- A response with the status and the `Server` header, without `Location`. -/
def fromServer (status : Int) (server : String) : Except URLError Response :=
  .ok { StatusCode := status, Header := [("Server", server)] }

/-- The flags as `traceHandler` leaves them before it calls `followRedirects`. -/
def startGlobals : Globals := { cloudflareStatus := false, thereWasATimeout := false }

/-- Two redirects, the second with a relative `Location`, then a 200. -/
def chainWorld : Client (List String) :=
  serve
    [("http://example.com/start", redirectTo 302 "http://example.com/a"),
     ("http://example.com/a", redirectTo 302 "/b"),
     ("http://example.com/b", fromServer 200 "nginx")]

/-- The first response is a 302 with the relative `Location: /next`; a request without a
scheme fails in the transport. -/
def relativeFirstWorld : Client (List String) :=
  serve
    [("http://example.com/start", redirectTo 302 "/next"),
     ("http://example.com/next", fromServer 200 "nginx"),
     ("/next", .error { Error := "Get \"/next\": unsupported protocol scheme \"\"",
                         Timeout := false })]

/-- A redirect whose target carries `returnUri=%2Fsecure%2Fapp` among its parameters. -/
def returnUriWorld : Client (List String) :=
  serve
    [("http://example.com/start",
        redirectTo 302 "http://example.com/login?x=1&returnUri=%2Fsecure%2Fapp"),
     ("http://example.com/login?returnUri=/secure/app", fromServer 200 "nginx")]

/-- A redirect whose target carries a `returnUri` value in which `%2F` and `%3A` are still
escaped after the two decodings (`%25252F` in the `Location`). -/
def escapedReturnUriWorld : Client (List String) :=
  serve
    [("http://example.com/start",
        redirectTo 302
          "http://example.com/login?returnUri=%25252Fsecure%25252Fapp%25253A8080%25253Ax&x=1"),
     ("http://example.com/login?returnUri=/secure/app:8080:x", fromServer 200 "nginx")]

/-- A redirect whose target has a `returnUri` parameter with the empty value. -/
def emptyReturnUriWorld : Client (List String) :=
  serve
    [("http://example.com/start", redirectTo 302 "http://example.com/a?returnUri=&x=1"),
     ("http://example.com/a?returnUri=&x=1", fromServer 200 "nginx"),
     ("http://example.com/a?returnUri=", fromServer 200 "nginx")]

/-- A redirect, then a redirect response without `Location` from the given server. -/
def noLocationWorld (server : String) : Client (List String) :=
  serve
    [("http://example.com/start", redirectTo 302 "http://example.com/a"),
     ("http://example.com/a", fromServer 301 server)]

/-- A redirect, then a request that fails in the transport. -/
def failingWorld (err : URLError) : Client (List String) :=
  serve
    [("http://example.com/start", redirectTo 302 "http://example.com/a"),
     ("http://example.com/a", .error err)]

/-- One URL that always answers 302 with a `Location` pointing back to itself. -/
def loopWorld : Client (List String) :=
  serve [("http://example.com/loop", redirectTo 302 "http://example.com/loop")]

/-- Comparison of two strings without regard to the case of ASCII letters. -/
def equalFold (s t : String) : Bool :=
  decide (s.data.map Char.toLower = t.data.map Char.toLower)

/-! ## Properties -/

/-- C1. For every status code `c`, `getStatusCodeClass c` is `"2xx"` exactly when
`200 ≤ c < 300`, `"3xx"` exactly when `300 ≤ c < 400`, `"4xx"` exactly when `400 ≤ c < 500`,
`"5xx"` exactly when `500 ≤ c < 600`, and the empty string exactly for every other `c`,
negative ones included; the function is total. -/
theorem getStatusCodeClass_classes (c : Int) :
    (getStatusCodeClass c = "2xx" ↔ 200 ≤ c ∧ c < 300) ∧
    (getStatusCodeClass c = "3xx" ↔ 300 ≤ c ∧ c < 400) ∧
    (getStatusCodeClass c = "4xx" ↔ 400 ≤ c ∧ c < 500) ∧
    (getStatusCodeClass c = "5xx" ↔ 500 ≤ c ∧ c < 600) ∧
    (getStatusCodeClass c = "" ↔ ¬ (200 ≤ c ∧ c < 600)) := by
  unfold getStatusCodeClass
  split_ifs <;> simp <;> omega

/-! ### The loop along a chain of redirects -/

theorem hopsFrom_length (n : Int) (xs : List (String × Int)) :
    (hopsFrom n xs).length = xs.length := by
  induction xs generalizing n with
  | nil => rfl
  | cons x rest ih => obtain ⟨url, status⟩ := x; simp [hopsFrom, ih]

theorem hopsFrom_append (n : Int) (xs ys : List (String × Int)) :
    hopsFrom n (xs ++ ys) = hopsFrom n xs ++ hopsFrom (n + xs.length) ys := by
  induction xs generalizing n with
  | nil => simp [hopsFrom]
  | cons x rest ih =>
    obtain ⟨url, status⟩ := x
    simp [hopsFrom, ih, add_assoc, add_comm (1 : Int)]

theorem hopsFrom_getElem? (n : Int) (xs : List (String × Int)) (i : Nat) :
    (hopsFrom n xs)[i]? = (xs[i]?).map (fun x =>
      ({ Number := n + i, URL := x.1, StatusCode := x.2,
         StatusCodeClass := getStatusCodeClass x.2 } : Hop)) := by
  induction xs generalizing n i with
  | nil => simp [hopsFrom]
  | cons x rest ih =>
    obtain ⟨url, status⟩ := x
    cases i with
    | zero => simp [hopsFrom]
    | succ j =>
      simp only [hopsFrom, List.getElem?_cons_succ, ih]
      congr 1
      funext y
      simp [add_assoc, add_comm (1 : Int)]

theorem redirectTarget_parses (lib : NetURL) (prev : Option URL) (location next : String)
    (p : URL) (h : redirectTarget lib prev location = .ok (next, p)) :
    lib.Parse next = .ok p := by
  unfold redirectTarget at h
  split at h
  · cases h
  · split at h
    · cases h
    · split at h
      · cases h
      · split at h
        · cases h
        · rename_i hp
          injection h with h
          injection h with h1 h2
          subst h1 h2
          exact hp

/-- One pass of the loop over a redirect response with a `Location` the tracer resolves. -/
theorem loopBody_redirect {σ : Type} (lib : NetURL) (client : Client σ) (st : LoopState σ)
    (q : URL) (resp : Response) (net1 : σ) (next : String) (p : URL)
    (hq : lib.Parse st.urlStr = .ok q)
    (hdo : client.Do st.net st.urlStr = (.ok resp, net1))
    (hlo : 300 ≤ resp.StatusCode) (hhi : resp.StatusCode ≤ 399)
    (hloc : resp.Header.Get "Location" ≠ "")
    (ht : redirectTarget lib st.previousURL (resp.Header.Get "Location") = .ok (next, p)) :
    loopBody lib client st = .next
      { urlStr := next, hops := st.hops ++ hopsFrom st.number [(st.urlStr, resp.StatusCode)],
        number := st.number + 1, previousURL := some p, g := st.g, w := st.w, net := net1 } := by
  unfold loopBody
  simp only [hq, hdo]
  simp [hlo, hhi, hloc, ht, hopsFrom]

/-- The loop follows a chain of redirects: after as many passes as there are redirects it is
at the top again, one hop recorded for each. -/
theorem followRedirectsLoop_redirected {σ : Type} (lib : NetURL) (client : Client σ)
    (reds : List (String × Int)) :
    ∀ (st : LoopState σ) (q : URL) (net' : σ) (prev' : Option URL) (u' : String) (n : Nat),
      lib.Parse st.urlStr = .ok q →
      Redirected lib client st.net st.previousURL st.urlStr reds net' prev' u' →
      followRedirectsLoop lib client (reds.length + n) st =
        followRedirectsLoop lib client n
          { urlStr := u', hops := st.hops ++ hopsFrom st.number reds,
            number := st.number + reds.length, previousURL := prev', g := st.g, w := st.w,
            net := net' } ∧
      ∃ q', lib.Parse u' = .ok q' := by
  induction reds with
  | nil =>
    intro st q net' prev' u' n hq h
    obtain ⟨h1, h2, h3⟩ := h
    subst h1 h2 h3
    refine ⟨?_, q, hq⟩
    cases st
    simp [hopsFrom]
  | cons x rest ih =>
    intro st q net' prev' u' n hq h
    obtain ⟨u1, s1⟩ := x
    obtain ⟨hu, resp, net1, next, p, hdo, hs, hlo, hhi, hloc, ht, hrest⟩ := h
    subst hu hs
    have hbody := loopBody_redirect lib client st q resp net1 next p hq hdo hlo hhi hloc ht
    have hp := redirectTarget_parses lib _ _ _ _ ht
    have hstep := ih
      { urlStr := next, hops := st.hops ++ hopsFrom st.number [(st.urlStr, resp.StatusCode)],
        number := st.number + 1, previousURL := some p, g := st.g, w := st.w, net := net1 }
      p net' prev' u' n hp hrest
    refine ⟨?_, hstep.2⟩
    have hlen : (((st.urlStr, resp.StatusCode) :: rest).length + n) = (rest.length + n) + 1 := by
      simp; omega
    rw [hlen]
    show (match loopBody lib client st with
      | .ret r => Step.ret r
      | .next st' => followRedirectsLoop lib client (rest.length + n) st') = _
    rw [hbody]
    simp only []
    rw [hstep.1]
    simp [hopsFrom, add_assoc, add_comm (1 : Int)]

theorem followRedirectsLoop_ret {σ : Type} (lib : NetURL) (client : Client σ) (fuel : Nat)
    (st : LoopState σ) (r : Returned σ) (h : loopBody lib client st = .ret r) :
    followRedirectsLoop lib client (fuel + 1) st = .ret r := by
  simp only [followRedirectsLoop, h]

theorem followRedirectsLoop_next {σ : Type} (lib : NetURL) (client : Client σ) (fuel : Nat)
    (st st' : LoopState σ) (h : loopBody lib client st = .next st') :
    followRedirectsLoop lib client (fuel + 1) st = followRedirectsLoop lib client fuel st' := by
  simp only [followRedirectsLoop, h]

/-- The last pass of a trace over a response that is no redirect. -/
theorem loopBody_final {σ : Type} (lib : NetURL) (client : Client σ) (st : LoopState σ)
    (q : URL) (resp : Response) (netf : σ)
    (hq : lib.Parse st.urlStr = .ok q)
    (hdo : client.Do st.net st.urlStr = (.ok resp, netf))
    (hfinal : ¬ (300 ≤ resp.StatusCode ∧ resp.StatusCode ≤ 399)) :
    loopBody lib client st = .ret
      { redirectURL := st.urlStr,
        hops := st.hops ++ hopsFrom st.number [(st.urlStr, resp.StatusCode)],
        err := none, g := st.g, w := st.w, net := netf } := by
  unfold loopBody
  simp only [hq, hdo]
  simp [hfinal, hopsFrom]

/-- C2. A trace from a URL that parses (so that its request can be built), along `k`
redirects (each answered with a status in [300,399] and a non-empty `Location` that the
tracer turns into the next URL), that ends on a response with a status outside [300,399]
returns, given `k + 1` passes of the loop or more: the final URL is the
last URL requested, the error is nil, and there are exactly `k + 1` hops in request order,
hop `i` (from 0) with `Number = i + 1`, the URL requested, the status received and the class
of that status. The timeout flag is left as it was. -/
theorem followRedirects_chain {σ : Type} (lib : NetURL) (client : Client σ) (g : Globals)
    (w : ResponseWriter) (net netk netf : σ) (prevk : Option URL) (u1 uf : String)
    (reds : List (String × Int)) (resp : Response) (extra : Nat)
    (hreq : ∃ q, lib.Parse u1 = .ok q)
    (hreds : Redirected lib client net none u1 reds netk prevk uf)
    (hdo : client.Do netk uf = (.ok resp, netf))
    (hfinal : ¬ (300 ≤ resp.StatusCode ∧ resp.StatusCode ≤ 399)) :
    ∃ r, followRedirects lib client (reds.length + 1 + extra) u1 g w net = .ret r ∧
      r.redirectURL = uf ∧ r.err = none ∧ r.hops.length = reds.length + 1 ∧
      (∀ i : Nat, r.hops[i]? = ((reds ++ [(uf, resp.StatusCode)])[i]?).map (fun x =>
        ({ Number := (i : Int) + 1, URL := x.1, StatusCode := x.2,
           StatusCodeClass := getStatusCodeClass x.2 } : Hop))) ∧
      r.g.thereWasATimeout = g.thereWasATimeout := by
  obtain ⟨q, hq⟩ := hreq
  have h := followRedirectsLoop_redirected lib client reds
    { urlStr := u1, hops := [], number := 1, previousURL := none,
      g := { g with cloudflareStatus := false }, w := w, net := net }
    q netk prevk uf (1 + extra) hq hreds
  obtain ⟨hrun, q', hq'⟩ := h
  refine ⟨{ redirectURL := uf, hops := hopsFrom 1 (reds ++ [(uf, resp.StatusCode)]),
            err := none, g := { g with cloudflareStatus := false }, w := w, net := netf },
    ?_, rfl, rfl, ?_, ?_, rfl⟩
  · unfold followRedirects
    rw [add_assoc, hrun, Nat.add_comm 1 extra]
    show (match loopBody lib client _ with
      | .ret r => Step.ret r
      | .next st' => followRedirectsLoop lib client extra st') = _
    rw [loopBody_final lib client _ q' resp netf hq' hdo hfinal]
    simp [hopsFrom_append]
  · simp [hopsFrom_length]
  · intro i
    simp only [hopsFrom_getElem?]
    congr 1
    funext x
    simp [add_comm (1 : Int)]

/-- C2 at two 302 responses followed by a 200: three hops numbered 1, 2, 3, and the final
URL is the target that answered 200. -/
theorem followRedirects_chain_witness :
    ∃ r, followRedirects goURL chainWorld 3 "http://example.com/start" startGlobals {} [] =
        .ret r ∧
      r.redirectURL = "http://example.com/b" ∧ r.err = none ∧ r.hops.length = 3 ∧
      (∀ i : Nat, r.hops[i]? =
        (([("http://example.com/start", 302), ("http://example.com/a", 302),
           ("http://example.com/b", 200)] : List (String × Int))[i]?).map (fun x =>
        ({ Number := (i : Int) + 1, URL := x.1, StatusCode := x.2,
           StatusCodeClass := getStatusCodeClass x.2 } : Hop))) ∧
      r.g.thereWasATimeout = false :=
  followRedirects_chain goURL chainWorld startGlobals {} []
    ["http://example.com/start", "http://example.com/a"]
    ["http://example.com/start", "http://example.com/a", "http://example.com/b"]
    (some { Scheme := "http", Host := "example.com", Path := "/b" })
    "http://example.com/start" "http://example.com/b"
    [("http://example.com/start", 302), ("http://example.com/a", 302)]
    { StatusCode := 200, Header := [("Server", "nginx")] } 0
    ⟨{ Scheme := "http", Host := "example.com", Path := "/start" }, by decide!⟩
    ⟨rfl, { StatusCode := 302, Header := [("Location", "http://example.com/a")] },
      ["http://example.com/start"], "http://example.com/a",
      { Scheme := "http", Host := "example.com", Path := "/a" },
      by decide!, rfl, by decide, by decide, by decide!, by decide!,
      rfl, { StatusCode := 302, Header := [("Location", "/b")] },
      ["http://example.com/start", "http://example.com/a"], "http://example.com/b",
      { Scheme := "http", Host := "example.com", Path := "/b" },
      by decide!, rfl, by decide, by decide, by decide!, by decide!,
      rfl, rfl, rfl⟩
    (by decide!) (by decide)

/-- A single 200: one hop with `Number = 1`, the final URL is the URL requested, the error is
nil and the timeout flag stays false. -/
theorem followRedirects_single_200 :
    followRedirects goURL chainWorld 1 "http://example.com/b" startGlobals {} [] =
      .ret
        { redirectURL := "http://example.com/b",
          hops := [{ Number := 1, URL := "http://example.com/b", StatusCode := 200,
                     StatusCodeClass := "2xx" }],
          err := none, g := startGlobals, w := {}, net := ["http://example.com/b"] } := by
  decide!

/-! ### Relative redirects -/

/-- C3, at a trace started at `http://example.com/start` whose first response is a 302 with
`Location: /next`: on the first pass `previousURL` is nil, so the reference is not resolved;
the loop goes on with `urlStr = "/next"`, the second request is for `/next` and not for
`http://example.com/next` (which this world would answer with 200), and the trace ends
with the error of that request. -/
theorem followRedirects_relative_first_hop :
    followRedirects goURL relativeFirstWorld 1 "http://example.com/start" startGlobals {} [] =
      .next
        { urlStr := "/next",
          hops := [{ Number := 1, URL := "http://example.com/start", StatusCode := 302,
                     StatusCodeClass := "3xx" }],
          number := 2, previousURL := some { Path := "/next" }, g := startGlobals, w := {},
          net := ["http://example.com/start"] } ∧
    followRedirects goURL relativeFirstWorld 2 "http://example.com/start" startGlobals {} [] =
      .ret
        { redirectURL := "", hops := [],
          err := some "error accessing URL: Get \"/next\": unsupported protocol scheme \"\"",
          g := startGlobals, w := {}, net := ["http://example.com/start", "/next"] } := by
  constructor <;> decide!

/-- C4. For a previous URL and a location that parses to a reference without scheme,
`handleRelativeRedirect` returns a nil error and the string form of the parsed reference with
`Scheme` and `Host` replaced by those of the previous URL, every other field being that of the
parsed location. With Go's `net/url`, the previous URL `http://example.com/start` and the
location `/next` give `http://example.com/next`. -/
theorem handleRelativeRedirect_previous :
    (∀ (lib : NetURL) (previous : URL) (location : String) (ref : URL),
      lib.Parse location = .ok ref → ref.Scheme = "" →
      handleRelativeRedirect lib (some previous) location =
        (lib.URLString { ref with Scheme := previous.Scheme, Host := previous.Host }, none)) ∧
    (∃ previous, goURL.Parse "http://example.com/start" = .ok previous ∧
      handleRelativeRedirect goURL (some previous) "/next" = ("http://example.com/next", none)) := by
  refine ⟨?_, { Scheme := "http", Host := "example.com", Path := "/start" }, by decide!,
    by decide!⟩
  intro lib previous location ref hparse hrel
  unfold handleRelativeRedirect
  simp [hparse, URL.IsAbs, hrel]

/-- C4 at the previous URL `https://example.org:8443/dir/page` and the location
`next?x=1#top`: path, query and fragment are those of the location. -/
theorem handleRelativeRedirect_previous_witness :
    handleRelativeRedirect goURL
        (some { Scheme := "https", Host := "example.org:8443", Path := "/dir/page" })
        "next?x=1#top" =
      (goURL.URLString
        { Scheme := "https", Host := "example.org:8443", Path := "next", RawQuery := "x=1",
          Fragment := "top" }, none) ∧
    goURL.URLString
        { Scheme := "https", Host := "example.org:8443", Path := "next", RawQuery := "x=1",
          Fragment := "top" } = "https://example.org:8443/next?x=1#top" :=
  ⟨handleRelativeRedirect_previous.1 goURL
      { Scheme := "https", Host := "example.org:8443", Path := "/dir/page" } "next?x=1#top"
      { Path := "next", RawQuery := "x=1", Fragment := "top" } (by decide!) rfl,
    by decide!⟩

/-- C5 fails at the location `/next`: it parses to a reference without scheme and host, and
with no previous URL `handleRelativeRedirect` returns the string `/next` and a nil error. -/
theorem handleRelativeRedirect_nil_counterexample :
    goURL.Parse "/next" = .ok { Path := "/next" } ∧
    handleRelativeRedirect goURL none "/next" = ("/next", none) := by
  constructor <;> decide!

/-- C5 as amended. With no previous URL `handleRelativeRedirect` returns an error exactly when
`url.Parse` of the location fails, and the error is that of `url.Parse`; a location that
parses, be it to a reference without scheme and host, gives a nil error. -/
theorem handleRelativeRedirect_nil (lib : NetURL) (location : String) :
    ((handleRelativeRedirect lib none location).2 ≠ none ↔
      ∃ err, lib.Parse location = .error err) ∧
    (∀ err, lib.Parse location = .error err →
      handleRelativeRedirect lib none location = ("", some err)) := by
  unfold handleRelativeRedirect
  cases hparse : lib.Parse location with
  | error err => simp
  | ok ref =>
    by_cases habs : ref.IsAbs = true <;> simp [habs]

/-- C5 as amended, at the location `:foo`, which `url.Parse` rejects: the parse error is
returned. -/
theorem handleRelativeRedirect_nil_witness :
    handleRelativeRedirect goURL none ":foo" = ("", some "missing protocol scheme") :=
  (handleRelativeRedirect_nil goURL ":foo").2 "missing protocol scheme" (by decide!)

/-! ### The `returnUri` rewrite -/

/-- C6 fails where the `returnUri` parameter is present with an empty value: the resolved
URL `http://example.com/a?returnUri=&x=1` has the parameter, yet the next URL requested is
the redirect target unchanged, with its parameter `x`, and not
`http://example.com/a?returnUri=`. -/
theorem returnUri_empty_counterexample :
    goURL.Parse "http://example.com/a?returnUri=&x=1" =
      .ok { Scheme := "http", Host := "example.com", Path := "/a", RawQuery := "returnUri=&x=1" } ∧
    goURL.Query { Scheme := "http", Host := "example.com", Path := "/a",
                  RawQuery := "returnUri=&x=1" } "returnUri" = [""] ∧
    followRedirects goURL emptyReturnUriWorld 2 "http://example.com/start" startGlobals {} [] =
      .ret
        { redirectURL := "http://example.com/a?returnUri=&x=1",
          hops := [{ Number := 1, URL := "http://example.com/start", StatusCode := 302,
                     StatusCodeClass := "3xx" },
                   { Number := 2, URL := "http://example.com/a?returnUri=&x=1",
                     StatusCode := 200, StatusCodeClass := "2xx" }],
          err := none, g := startGlobals, w := {},
          net := ["http://example.com/start", "http://example.com/a?returnUri=&x=1"] } ∧
    "http://example.com/a?returnUri=&x=1" ≠
      "http" ++ "://" ++ "example.com" ++ "/a" ++ "?returnUri=" ++ "" := by
  refine ⟨?_, ?_, ?_, ?_⟩ <;> decide!

/-- Where `url.PathUnescape` rejects the `returnUri` value (here `100%`, the decoded form of
`100%25`), no further URL is requested: the trace returns the error. -/
theorem returnUri_bad_escape :
    followRedirects goURL
        (serve [("http://example.com/start",
          redirectTo 302 "http://example.com/a?returnUri=100%25")])
        2 "http://example.com/start" startGlobals {} [] =
      .ret
        { redirectURL := "", hops := [],
          err := some "error decoding returnUri: invalid URL escape \"%\"",
          g := startGlobals, w := {}, net := ["http://example.com/start"] } := by
  decide!

/-- C6 as amended. When a redirect response (status in [300,399], `Location` non-empty) is
resolved to a URL that parses to `u`, the first `returnUri` value `Query` gives for `u` is
not empty, `url.PathUnescape` decodes it to `d`, and the rebuilt string parses, the loop goes
on and the URL of its next request is exactly
`u.Scheme + "://" + u.Host + u.Path + "?returnUri=" + v`, with `v` the string `d` after every
`%3A` is replaced by `:` and then every `%2F` by `/`. -/
theorem loopBody_returnUri {σ : Type} (lib : NetURL) (client : Client σ) (st : LoopState σ)
    (q : URL) (resp : Response) (net1 : σ) (target : String) (u : URL) (d : String) (p : URL)
    (hq : lib.Parse st.urlStr = .ok q)
    (hdo : client.Do st.net st.urlStr = (.ok resp, net1))
    (hlo : 300 ≤ resp.StatusCode) (hhi : resp.StatusCode ≤ 399)
    (hloc : resp.Header.Get "Location" ≠ "")
    (hres : handleRelativeRedirect lib st.previousURL (resp.Header.Get "Location") =
      (target, none))
    (hu : lib.Parse target = .ok u)
    (hne : (lib.Query u).Get "returnUri" ≠ "")
    (hd : lib.PathUnescape ((lib.Query u).Get "returnUri") = .ok d)
    (hp : lib.Parse (u.Scheme ++ "://" ++ u.Host ++ u.Path ++ "?returnUri=" ++
      stringsReplaceAll (stringsReplaceAll d "%3A" ":") "%2F" "/") = .ok p) :
    ∃ st', loopBody lib client st = .next st' ∧ st'.net = net1 ∧
      st'.urlStr = u.Scheme ++ "://" ++ u.Host ++ u.Path ++ "?returnUri=" ++
        stringsReplaceAll (stringsReplaceAll d "%3A" ":") "%2F" "/" ∧
      lib.Parse st'.urlStr = .ok p := by
  have ht : redirectTarget lib st.previousURL (resp.Header.Get "Location") =
      .ok (u.Scheme ++ "://" ++ u.Host ++ u.Path ++ "?returnUri=" ++
        stringsReplaceAll (stringsReplaceAll d "%3A" ":") "%2F" "/", p) := by
    unfold redirectTarget
    simp only [hres, hu]
    have hrw : rewriteReturnUri lib u target =
        .ok (u.Scheme ++ "://" ++ u.Host ++ u.Path ++ "?returnUri=" ++
          stringsReplaceAll (stringsReplaceAll d "%3A" ":") "%2F" "/") := by
      unfold rewriteReturnUri
      simp [hne, hd]
    simp only [hrw, hp]
  exact ⟨_, loopBody_redirect lib client st q resp net1 _ p hq hdo hlo hhi hloc ht, rfl, rfl, hp⟩

/-- C6 at two redirects. At a `Location` whose query string is
`x=1&returnUri=%2Fsecure%2Fapp` the value decodes to `/secure/app`, the next URL requested is
`http://example.com/login?returnUri=/secure/app`, its query string is exactly
`returnUri=/secure/app`, and the parameter `x` is gone. At a `Location` whose `returnUri`
value decodes to `%2Fsecure%2Fapp%3A8080%3Ax`, every `%3A` and every `%2F` of it is replaced:
the next URL requested is `http://example.com/login?returnUri=/secure/app:8080:x`. -/
theorem loopBody_returnUri_witness :
    (∃ st', loopBody goURL returnUriWorld
        { urlStr := "http://example.com/start", hops := [], number := 1, previousURL := none,
          g := startGlobals, w := {}, net := [] } = .next st' ∧
      st'.net = ["http://example.com/start"] ∧
      st'.urlStr = "http://example.com/login?returnUri=/secure/app" ∧
      goURL.Parse st'.urlStr =
        .ok { Scheme := "http", Host := "example.com", Path := "/login",
              RawQuery := "returnUri=/secure/app" }) ∧
    (∃ st', loopBody goURL escapedReturnUriWorld
        { urlStr := "http://example.com/start", hops := [], number := 1, previousURL := none,
          g := startGlobals, w := {}, net := [] } = .next st' ∧
      st'.net = ["http://example.com/start"] ∧
      st'.urlStr = "http://example.com/login?returnUri=/secure/app:8080:x" ∧
      goURL.Parse st'.urlStr =
        .ok { Scheme := "http", Host := "example.com", Path := "/login",
              RawQuery := "returnUri=/secure/app:8080:x" }) :=
  ⟨loopBody_returnUri goURL returnUriWorld
      { urlStr := "http://example.com/start", hops := [], number := 1, previousURL := none,
        g := startGlobals, w := {}, net := [] }
      { Scheme := "http", Host := "example.com", Path := "/start" }
      { StatusCode := 302,
        Header := [("Location", "http://example.com/login?x=1&returnUri=%2Fsecure%2Fapp")] }
      ["http://example.com/start"]
      "http://example.com/login?x=1&returnUri=%2Fsecure%2Fapp"
      { Scheme := "http", Host := "example.com", Path := "/login",
        RawQuery := "x=1&returnUri=%2Fsecure%2Fapp" }
      "/secure/app"
      { Scheme := "http", Host := "example.com", Path := "/login",
        RawQuery := "returnUri=/secure/app" }
      (by decide!) (by decide!) (by decide) (by decide) (by decide!) (by decide!) (by decide!)
      (by decide!) (by decide!) (by decide!),
    loopBody_returnUri goURL escapedReturnUriWorld
      { urlStr := "http://example.com/start", hops := [], number := 1, previousURL := none,
        g := startGlobals, w := {}, net := [] }
      { Scheme := "http", Host := "example.com", Path := "/start" }
      { StatusCode := 302,
        Header := [("Location",
          "http://example.com/login?returnUri=%25252Fsecure%25252Fapp%25253A8080%25253Ax&x=1")] }
      ["http://example.com/start"]
      "http://example.com/login?returnUri=%25252Fsecure%25252Fapp%25253A8080%25253Ax&x=1"
      { Scheme := "http", Host := "example.com", Path := "/login",
        RawQuery := "returnUri=%25252Fsecure%25252Fapp%25253A8080%25253Ax&x=1" }
      "%2Fsecure%2Fapp%3A8080%3Ax"
      { Scheme := "http", Host := "example.com", Path := "/login",
        RawQuery := "returnUri=/secure/app:8080:x" }
      (by decide!) (by decide!) (by decide) (by decide) (by decide!) (by decide!) (by decide!)
      (by decide!) (by decide!) (by decide!)⟩

/-- `strings.ReplaceAll` replaces every occurrence, from the left, and leaves an incomplete
one alone. -/
theorem stringsReplaceAll_examples :
    stringsReplaceAll "a%3A%3Ab%3" "%3A" ":" = "a::b%3" ∧
    stringsReplaceAll "%2F%2Fx%2f%2F" "%2F" "/" = "//x%2f/" ∧
    stringsReplaceAll "/secure/app" "%2F" "/" = "/secure/app" := by
  refine ⟨?_, ?_, ?_⟩ <;> decide!

/-- With an empty first `returnUri` value (the parameter absent, or present with the empty
value) lines 125-135 leave `redirectURL` as it is. -/
theorem rewriteReturnUri_empty (lib : NetURL) (u : URL) (redirectURL : String)
    (he : (lib.Query u).Get "returnUri" = "") :
    rewriteReturnUri lib u redirectURL = .ok redirectURL := by
  unfold rewriteReturnUri
  simp [he]

/-- With an empty first `returnUri` value the loop goes on with the resolved redirect URL
unchanged, query string included. -/
theorem loopBody_returnUri_absent {σ : Type} (lib : NetURL) (client : Client σ)
    (st : LoopState σ) (q : URL) (resp : Response) (net1 : σ) (target : String) (u : URL)
    (hq : lib.Parse st.urlStr = .ok q)
    (hdo : client.Do st.net st.urlStr = (.ok resp, net1))
    (hlo : 300 ≤ resp.StatusCode) (hhi : resp.StatusCode ≤ 399)
    (hloc : resp.Header.Get "Location" ≠ "")
    (hres : handleRelativeRedirect lib st.previousURL (resp.Header.Get "Location") =
      (target, none))
    (hu : lib.Parse target = .ok u)
    (he : (lib.Query u).Get "returnUri" = "") :
    loopBody lib client st = .next
      { urlStr := target, hops := st.hops ++ hopsFrom st.number [(st.urlStr, resp.StatusCode)],
        number := st.number + 1, previousURL := some u, g := st.g, w := st.w, net := net1 } := by
  have ht : redirectTarget lib st.previousURL (resp.Header.Get "Location") =
      .ok (target, u) := by
    unfold redirectTarget
    simp only [hres, hu, rewriteReturnUri_empty lib u target he]
  exact loopBody_redirect lib client st q resp net1 target u hq hdo hlo hhi hloc ht

/-! ### A redirect without `Location` -/

theorem stringsContains_iff (s substr : String) :
    stringsContains s substr = true ↔ ∃ a b : List Char, s.data = a ++ substr.data ++ b := by
  unfold stringsContains
  rw [List.any_eq_true]
  constructor
  · rintro ⟨t, ht, hpre⟩
    rw [List.mem_tails] at ht
    rw [List.isPrefixOf_iff_prefix] at hpre
    obtain ⟨a, ha⟩ := ht
    obtain ⟨b, hb⟩ := hpre
    exact ⟨a, b, by rw [← ha, ← hb, List.append_assoc]⟩
  · rintro ⟨a, b, h⟩
    refine ⟨substr.data ++ b, ?_, ?_⟩
    · rw [List.mem_tails]
      exact ⟨a, by rw [h, List.append_assoc]⟩
    · rw [List.isPrefixOf_iff_prefix]
      exact ⟨b, rfl⟩

/-- The last pass of a trace over a redirect response without `Location`. -/
theorem loopBody_noLocation {σ : Type} (lib : NetURL) (client : Client σ) (st : LoopState σ)
    (q : URL) (resp : Response) (netf : σ)
    (hq : lib.Parse st.urlStr = .ok q)
    (hdo : client.Do st.net st.urlStr = (.ok resp, netf))
    (hlo : 300 ≤ resp.StatusCode) (hhi : resp.StatusCode ≤ 399)
    (hloc : resp.Header.Get "Location" = "") :
    loopBody lib client st = .ret
      { redirectURL := "", hops := [], err := none,
        g := if stringsContains (resp.Header.Get "Server") "cloudflare" then
            { st.g with cloudflareStatus := true }
          else st.g,
        w := st.w, net := netf } := by
  unfold loopBody
  simp only [hq, hdo]
  simp [hlo, hhi, hloc]

/-- The trace of `followRedirects` that, after the redirects `reds`, gets a redirect response
without `Location`. -/
theorem followRedirects_noLocation_run {σ : Type} (lib : NetURL) (client : Client σ)
    (g : Globals) (w : ResponseWriter) (net netk netf : σ) (prevk : Option URL)
    (u1 uk : String) (reds : List (String × Int)) (resp : Response) (extra : Nat)
    (hreq : ∃ q, lib.Parse u1 = .ok q)
    (hreds : Redirected lib client net none u1 reds netk prevk uk)
    (hdo : client.Do netk uk = (.ok resp, netf))
    (hlo : 300 ≤ resp.StatusCode) (hhi : resp.StatusCode ≤ 399)
    (hloc : resp.Header.Get "Location" = "") :
    followRedirects lib client (reds.length + 1 + extra) u1 g w net = .ret
      { redirectURL := "", hops := [], err := none,
        g := { cloudflareStatus := stringsContains (resp.Header.Get "Server") "cloudflare",
               thereWasATimeout := g.thereWasATimeout },
        w := w, net := netf } := by
  obtain ⟨q, hq⟩ := hreq
  obtain ⟨hrun, q', hq'⟩ := followRedirectsLoop_redirected lib client reds
    { urlStr := u1, hops := [], number := 1, previousURL := none,
      g := { g with cloudflareStatus := false }, w := w, net := net }
    q netk prevk uk (1 + extra) hq hreds
  unfold followRedirects
  rw [add_assoc, hrun, Nat.add_comm 1 extra]
  show (match loopBody lib client _ with
    | .ret r => Step.ret r
    | .next st' => followRedirectsLoop lib client extra st') = _
  rw [loopBody_noLocation lib client _ q' resp netf hq' hdo hlo hhi hloc]
  cases hc : stringsContains (resp.Header.Get "Server") "cloudflare" <;> simp

/-- C7. A trace in which, after any number of redirect hops, a request is answered with a
status in [300,399] and no `Location` header returns an empty final URL, no hops (those
collected so far, the one just recorded included, are given up) and a nil error. -/
theorem followRedirects_noLocation {σ : Type} (lib : NetURL) (client : Client σ)
    (g : Globals) (w : ResponseWriter) (net netk netf : σ) (prevk : Option URL)
    (u1 uk : String) (reds : List (String × Int)) (resp : Response) (extra : Nat)
    (hreq : ∃ q, lib.Parse u1 = .ok q)
    (hreds : Redirected lib client net none u1 reds netk prevk uk)
    (hdo : client.Do netk uk = (.ok resp, netf))
    (hlo : 300 ≤ resp.StatusCode) (hhi : resp.StatusCode ≤ 399)
    (hloc : resp.Header.Get "Location" = "") :
    ∃ r, followRedirects lib client (reds.length + 1 + extra) u1 g w net = .ret r ∧
      r.redirectURL = "" ∧ r.hops = [] ∧ r.err = none :=
  ⟨_, followRedirects_noLocation_run lib client g w net netk netf prevk u1 uk reds resp extra
    hreq hreds hdo hlo hhi hloc, rfl, rfl, rfl⟩

/-- C7 at a 302 followed by a 301 without `Location`: the hop of the first request is given
up with the second. -/
theorem followRedirects_noLocation_witness :
    ∃ r, followRedirects goURL (noLocationWorld "nginx") 2 "http://example.com/start"
        startGlobals {} [] = .ret r ∧
      r.redirectURL = "" ∧ r.hops = [] ∧ r.err = none :=
  followRedirects_noLocation goURL (noLocationWorld "nginx") startGlobals {} []
    ["http://example.com/start"] ["http://example.com/start", "http://example.com/a"]
    (some { Scheme := "http", Host := "example.com", Path := "/a" })
    "http://example.com/start" "http://example.com/a" [("http://example.com/start", 302)]
    { StatusCode := 301, Header := [("Server", "nginx")] } 0
    ⟨{ Scheme := "http", Host := "example.com", Path := "/start" }, by decide!⟩
    ⟨rfl, { StatusCode := 302, Header := [("Location", "http://example.com/a")] },
      ["http://example.com/start"], "http://example.com/a",
      { Scheme := "http", Host := "example.com", Path := "/a" },
      by decide!, rfl, by decide, by decide, by decide!, by decide!, rfl, rfl, rfl⟩
    (by decide!) (by decide) (by decide) (by decide!)

/-- C8 fails at the `Server` value `Cloudflare`: it differs from the signature `cloudflare`
in letter case only, and after the trace the flag `cloudflareStatus` is false. -/
theorem cloudflareStatus_case_counterexample :
    equalFold "Cloudflare" "cloudflare" = true ∧
    followRedirects goURL (noLocationWorld "Cloudflare") 2 "http://example.com/start"
        startGlobals {} [] =
      .ret
        { redirectURL := "", hops := [], err := none,
          g := { cloudflareStatus := false, thereWasATimeout := false }, w := {},
          net := ["http://example.com/start", "http://example.com/a"] } := by
  constructor <;> decide!

/-- C8 as amended. When a trace ends on a response with a status in [300,399] and no
`Location` header, the flag `cloudflareStatus` is true after the trace exactly when the
`Server` header of that response contains the bytes `cloudflare` as a substring (in lower
case, as written), whatever the flag was before. -/
theorem cloudflareStatus_iff_contains {σ : Type} (lib : NetURL) (client : Client σ)
    (g : Globals) (w : ResponseWriter) (net netk netf : σ) (prevk : Option URL)
    (u1 uk : String) (reds : List (String × Int)) (resp : Response) (extra : Nat)
    (hreq : ∃ q, lib.Parse u1 = .ok q)
    (hreds : Redirected lib client net none u1 reds netk prevk uk)
    (hdo : client.Do netk uk = (.ok resp, netf))
    (hlo : 300 ≤ resp.StatusCode) (hhi : resp.StatusCode ≤ 399)
    (hloc : resp.Header.Get "Location" = "") :
    ∃ r, followRedirects lib client (reds.length + 1 + extra) u1 g w net = .ret r ∧
      (r.g.cloudflareStatus = true ↔
        ∃ a b : List Char, (resp.Header.Get "Server").data = a ++ "cloudflare".data ++ b) :=
  ⟨_, followRedirects_noLocation_run lib client g w net netk netf prevk u1 uk reds resp extra
    hreq hreds hdo hlo hhi hloc, stringsContains_iff _ _⟩

/-- C8 at `Server: cloudflare-nginx` with the flag false before the trace: the flag is true
after it. -/
theorem cloudflareStatus_iff_contains_witness :
    ∃ r, followRedirects goURL (noLocationWorld "cloudflare-nginx") 2
        "http://example.com/start" startGlobals {} [] = .ret r ∧
      (r.g.cloudflareStatus = true ↔
        ∃ a b : List Char, "cloudflare-nginx".data = a ++ "cloudflare".data ++ b) :=
  cloudflareStatus_iff_contains goURL (noLocationWorld "cloudflare-nginx") startGlobals {} []
    ["http://example.com/start"] ["http://example.com/start", "http://example.com/a"]
    (some { Scheme := "http", Host := "example.com", Path := "/a" })
    "http://example.com/start" "http://example.com/a" [("http://example.com/start", 302)]
    { StatusCode := 301, Header := [("Server", "cloudflare-nginx")] } 0
    ⟨{ Scheme := "http", Host := "example.com", Path := "/start" }, by decide!⟩
    ⟨rfl, { StatusCode := 302, Header := [("Location", "http://example.com/a")] },
      ["http://example.com/start"], "http://example.com/a",
      { Scheme := "http", Host := "example.com", Path := "/a" },
      by decide!, rfl, by decide, by decide, by decide!, by decide!, rfl, rfl, rfl⟩
    (by decide!) (by decide) (by decide) (by decide!)

/-! ### A request that fails -/

/-- The last pass of a trace whose request fails in the transport. -/
theorem loopBody_failed {σ : Type} (lib : NetURL) (client : Client σ) (st : LoopState σ)
    (q : URL) (e : URLError) (netf : σ)
    (hq : lib.Parse st.urlStr = .ok q)
    (hdo : client.Do st.net st.urlStr = (.error e, netf)) :
    loopBody lib client st =
      if e.Timeout then
        .ret { redirectURL := "", hops := [], err := none, g := (doTimeout st.g st.w).1,
               w := (doTimeout st.g st.w).2, net := netf }
      else
        .ret { redirectURL := "", hops := [], err := some ("error accessing URL: " ++ e.Error),
               g := st.g, w := st.w, net := netf } := by
  unfold loopBody
  simp only [hq, hdo]

/-- C9. When, after any number of redirect hops, a request fails in the transport,
`followRedirects` returns an empty final URL and no hops, and its error is nil exactly when
the failure is a timeout: on a timeout the flag `thereWasATimeout` is true afterwards, on
any other failure the error is not nil and the flag is as it was. -/
theorem followRedirects_failed {σ : Type} (lib : NetURL) (client : Client σ)
    (g : Globals) (w : ResponseWriter) (net netk netf : σ) (prevk : Option URL)
    (u1 uk : String) (reds : List (String × Int)) (e : URLError) (extra : Nat)
    (hreq : ∃ q, lib.Parse u1 = .ok q)
    (hreds : Redirected lib client net none u1 reds netk prevk uk)
    (hdo : client.Do netk uk = (.error e, netf)) :
    ∃ r, followRedirects lib client (reds.length + 1 + extra) u1 g w net = .ret r ∧
      r.redirectURL = "" ∧ r.hops = [] ∧
      (r.err = none ↔ e.Timeout = true) ∧
      (e.Timeout = true → r.g.thereWasATimeout = true) ∧
      (e.Timeout = false → r.err ≠ none ∧ r.g.thereWasATimeout = g.thereWasATimeout) := by
  obtain ⟨q, hq⟩ := hreq
  obtain ⟨hrun, q', hq'⟩ := followRedirectsLoop_redirected lib client reds
    { urlStr := u1, hops := [], number := 1, previousURL := none,
      g := { g with cloudflareStatus := false }, w := w, net := net }
    q netk prevk uk (1 + extra) hq hreds
  unfold followRedirects
  rw [add_assoc, hrun, Nat.add_comm 1 extra]
  have hbody := loopBody_failed lib client
    { urlStr := uk, hops := [] ++ hopsFrom 1 reds, number := 1 + reds.length,
      previousURL := prevk, g := { g with cloudflareStatus := false }, w := w, net := netk }
    q' e netf hq' hdo
  cases ht : e.Timeout
  · rw [ht] at hbody
    exact ⟨_, followRedirectsLoop_ret lib client extra _ _ hbody, rfl, rfl, by simp, by simp,
      fun _ => ⟨by simp, rfl⟩⟩
  · rw [ht] at hbody
    exact ⟨_, followRedirectsLoop_ret lib client extra _ _ hbody, rfl, rfl, by simp,
      fun _ => rfl, by simp⟩

/-- C9 at a 302 followed by a request that times out: no hops, a nil error, and the timeout
flag, false before the trace, is true after it. -/
theorem followRedirects_failed_witness :
    ∃ r, followRedirects goURL
        (failingWorld { Error := "net/http: timeout awaiting response headers",
                        Timeout := true })
        2 "http://example.com/start" startGlobals {} [] = .ret r ∧
      r.redirectURL = "" ∧ r.hops = [] ∧
      (r.err = none ↔ true = true) ∧
      (true = true → r.g.thereWasATimeout = true) ∧
      (true = false → r.err ≠ none ∧ r.g.thereWasATimeout = false) :=
  followRedirects_failed goURL
    (failingWorld { Error := "net/http: timeout awaiting response headers", Timeout := true })
    startGlobals {} []
    ["http://example.com/start"] ["http://example.com/start", "http://example.com/a"]
    (some { Scheme := "http", Host := "example.com", Path := "/a" })
    "http://example.com/start" "http://example.com/a" [("http://example.com/start", 302)]
    { Error := "net/http: timeout awaiting response headers", Timeout := true } 0
    ⟨{ Scheme := "http", Host := "example.com", Path := "/start" }, by decide!⟩
    ⟨rfl, { StatusCode := 302, Header := [("Location", "http://example.com/a")] },
      ["http://example.com/start"], "http://example.com/a",
      { Scheme := "http", Host := "example.com", Path := "/a" },
      by decide!, rfl, by decide, by decide, by decide!, by decide!, rfl, rfl, rfl⟩
    (by decide!)

/-! ### A redirect loop -/

theorem handleRelativeRedirect_absolute (lib : NetURL) (prev : Option URL) (location : String)
    (ref : URL) (hparse : lib.Parse location = .ok ref) (habs : ref.Scheme ≠ "") :
    handleRelativeRedirect lib prev location = (lib.URLString ref, none) := by
  unfold handleRelativeRedirect
  simp [hparse, URL.IsAbs, habs]

theorem redirectTarget_absolute (lib : NetURL) (prev : Option URL) (location : String)
    (ref : URL) (hparse : lib.Parse location = .ok ref) (habs : ref.Scheme ≠ "") :
    redirectTarget lib prev location = redirectTarget lib none location := by
  unfold redirectTarget
  rw [handleRelativeRedirect_absolute lib prev location ref hparse habs,
    handleRelativeRedirect_absolute lib none location ref hparse habs]

/-- One pass of the loop in `loopWorld` at the URL that redirects to itself. -/
theorem loopBody_loopWorld (st : LoopState (List String))
    (hurl : st.urlStr = "http://example.com/loop") :
    loopBody goURL loopWorld st = .next
      { urlStr := "http://example.com/loop",
        hops := st.hops ++ hopsFrom st.number [("http://example.com/loop", 302)],
        number := st.number + 1,
        previousURL := some { Scheme := "http", Host := "example.com", Path := "/loop" },
        g := st.g, w := st.w, net := st.net ++ ["http://example.com/loop"] } := by
  have hparse : goURL.Parse "http://example.com/loop" =
      .ok { Scheme := "http", Host := "example.com", Path := "/loop" } := by decide!
  have h := loopBody_redirect goURL loopWorld st
    { Scheme := "http", Host := "example.com", Path := "/loop" }
    { StatusCode := 302, Header := [("Location", "http://example.com/loop")] }
    (st.net ++ ["http://example.com/loop"]) "http://example.com/loop"
    { Scheme := "http", Host := "example.com", Path := "/loop" }
    (by rw [hurl]; exact hparse) (by rw [hurl]; rfl) (by decide) (by decide) (by decide!)
    (by
      show redirectTarget goURL st.previousURL "http://example.com/loop" = _
      rw [redirectTarget_absolute goURL st.previousURL _ _ hparse (by decide)]
      decide!)
  rw [h, hurl]

theorem followRedirectsLoop_loopWorld (n : Nat) :
    ∀ st : LoopState (List String), st.urlStr = "http://example.com/loop" →
      ∃ st', followRedirectsLoop goURL loopWorld n st = .next st' ∧
        st'.net = st.net ++ List.replicate n "http://example.com/loop" ∧
        st'.hops.length = st.hops.length + n := by
  induction n with
  | zero => intro st _; exact ⟨st, rfl, by simp, by simp⟩
  | succ k ih =>
    intro st hurl
    obtain ⟨st', hrun, hnet, hhops⟩ := ih _ (rfl :
      ({ urlStr := "http://example.com/loop",
         hops := st.hops ++ hopsFrom st.number [("http://example.com/loop", 302)],
         number := st.number + 1,
         previousURL := some { Scheme := "http", Host := "example.com", Path := "/loop" },
         g := st.g, w := st.w, net := st.net ++ ["http://example.com/loop"] } :
        LoopState (List String)).urlStr = "http://example.com/loop")
    refine ⟨st', ?_, ?_, ?_⟩
    · rw [followRedirectsLoop_next goURL loopWorld k st _ (loopBody_loopWorld st hurl)]
      exact hrun
    · rw [hnet]
      simp [List.replicate_succ]
    · rw [hhops]
      simp [hopsFrom]
      omega

/-- C10. `followRedirects` has no maximum hop count: in the world where
`http://example.com/loop` always answers 302 with a `Location` pointing back to itself, a
trace started there has, after any number `n` of passes of the loop, not returned: it is at
the top of the loop again, having issued `n` requests (all for that URL) and recorded `n`
hops. So for every `n` it issues more than `n` requests, and it never returns. -/
theorem followRedirects_unbounded (g : Globals) (w : ResponseWriter) (n : Nat) :
    ∃ st, followRedirects goURL loopWorld n "http://example.com/loop" g w [] = .next st ∧
      st.net = List.replicate n "http://example.com/loop" ∧ st.hops.length = n := by
  obtain ⟨st', hrun, hnet, hhops⟩ := followRedirectsLoop_loopWorld n
    { urlStr := "http://example.com/loop", hops := [], number := 1, previousURL := none,
      g := { g with cloudflareStatus := false }, w := w, net := [] } rfl
  exact ⟨st', hrun, by simpa using hnet, by simpa using hhops⟩

end WhereGoes
